import Mathlib

/-!
Verification of the signal-scoring and snapshot-retention subsystem of the
klaken-v2 repository.

The Python sources are shallowly embedded:
* floats are embedded as exact rationals (`ℚ`); the transcendental tail of the
  magnet score (`math.tanh`, `math.log1p`) lives in `ℝ`;
* `None` / values that fail `float(...)` coercion are embedded as `Option.none`;
* Python's `round(x, 4)` (round-half-to-even) is embedded as `pyRound4`;
* the SQLite table behind `snapshot_persistence.py` is embedded as an explicit
  list of rows plus the autoincrement counter, threaded through each operation;
* exceptions are embedded with `Except Unit`; the wall clock is an explicit
  argument (`ts`, `hour`) wherever the code calls `datetime.utcnow()`.
-/

namespace Klaken

/-! ## Python `round` (banker's rounding)

`round(x, 4)` in CPython rounds to the nearest multiple of 10⁻⁴, ties going to
the even digit.  `roundHalfEven` is the integer-valued core: nearest integer,
ties to even. -/

def roundHalfEven {α : Type} [LinearOrderedField α] [FloorRing α] [DecidableEq α]
    (x : α) : ℤ :=
  if Int.fract x = 1 / 2 then (if ⌊x⌋ % 2 = 0 then ⌊x⌋ else ⌊x⌋ + 1) else round x

def pyRound4 {α : Type} [LinearOrderedField α] [FloorRing α] [DecidableEq α]
    (x : α) : α :=
  ((roundHalfEven (x * 10000) : ℤ) : α) / 10000

section RoundLemmas

variable {α : Type} [LinearOrderedField α] [FloorRing α] [DecidableEq α]

theorem abs_roundHalfEven_sub (x : α) : |(roundHalfEven x : α) - x| ≤ 1 / 2 := by
  unfold roundHalfEven
  split_ifs with h1 h2
  · have hx : (⌊x⌋ : α) + 1 / 2 = x := by
      have := Int.floor_add_fract x
      rw [h1] at this
      linarith
    rw [abs_le]
    constructor <;> linarith
  · have hx : (⌊x⌋ : α) + 1 / 2 = x := by
      have := Int.floor_add_fract x
      rw [h1] at this
      linarith
    push_cast
    rw [abs_le]
    constructor <;> linarith
  · rw [abs_sub_comm]
    exact abs_sub_round x

theorem abs_roundHalfEven_le {x : α} {c : ℤ} (h : |x| ≤ (c : α)) :
    |roundHalfEven x| ≤ c := by
  have h1 : |(roundHalfEven x : α)| ≤ (c : α) + 1 / 2 := by
    have h2 := abs_roundHalfEven_sub x
    calc |(roundHalfEven x : α)| = |(roundHalfEven x : α) - x + x| := by ring_nf
    _ ≤ |(roundHalfEven x : α) - x| + |x| := abs_add _ _
    _ ≤ (c : α) + 1 / 2 := by linarith
  have h3 : ((|roundHalfEven x| : ℤ) : α) < ((c + 1 : ℤ) : α) := by
    push_cast
    rw [← Int.cast_abs]
    calc ((|roundHalfEven x| : ℤ) : α) = |(roundHalfEven x : α)| := by
          rw [Int.cast_abs]
    _ ≤ (c : α) + 1 / 2 := h1
    _ < (c : α) + 1 := by linarith
  have h4 : |roundHalfEven x| < c + 1 := by exact_mod_cast h3
  omega

theorem abs_pyRound4_le_one {x : α} (h : |x| ≤ 1) : |pyRound4 x| ≤ 1 := by
  unfold pyRound4
  have hx : |x * 10000| ≤ ((10000 : ℤ) : α) := by
    rw [abs_mul]
    push_cast
    calc |x| * |(10000 : α)| = |x| * 10000 := by norm_num
    _ ≤ 1 * 10000 := by
          have : (0 : α) ≤ 10000 := by norm_num
          exact mul_le_mul_of_nonneg_right h this
    _ = 10000 := by norm_num
  have hb : |roundHalfEven (x * 10000)| ≤ (10000 : ℤ) :=
    abs_roundHalfEven_le hx
  rw [abs_div]
  have h10 : |(10000 : α)| = 10000 := by norm_num
  rw [h10, div_le_one (by norm_num : (0 : α) < 10000)]
  rw [← Int.cast_abs]
  exact_mod_cast hb

theorem round_neg_of_fract_ne_half {x : α} (h0 : Int.fract x ≠ 0)
    (hh : Int.fract x ≠ 1 / 2) : round (-x) = -round x := by
  set n := ⌊x⌋ with hn
  set f := Int.fract x with hf
  have hx : x = (n : α) + f := by
    rw [hn, hf]
    have := Int.floor_add_fract x
    linarith
  have hf0 : 0 ≤ f := Int.fract_nonneg x
  have hf1 : f < 1 := Int.fract_lt_one x
  have hfpos : 0 < f := lt_of_le_of_ne hf0 (Ne.symm h0)
  rcases lt_or_gt_of_ne hh with hlt | hgt
  · -- 0 < f < 1/2 : round x = n, round (-x) = -n
    have e1 : round x = n := by
      rw [round_eq, hx, add_assoc, Int.floor_int_add]
      have hz : ⌊f + 1 / 2⌋ = 0 := by
        rw [Int.floor_eq_iff]
        push_cast
        constructor <;> linarith
      rw [hz]; omega
    have e2 : round (-x) = -n := by
      rw [round_eq, hx]
      have heq : -((n : α) + f) + 1 / 2 = ((-n : ℤ) : α) + (1 / 2 - f) := by
        push_cast; ring
      rw [heq, Int.floor_int_add]
      have hz : ⌊(1 : α) / 2 - f⌋ = 0 := by
        rw [Int.floor_eq_iff]
        push_cast
        constructor <;> linarith
      rw [hz]; omega
    rw [e1, e2]
  · -- 1/2 < f < 1 : round x = n + 1, round (-x) = -(n + 1)
    have e1 : round x = n + 1 := by
      rw [round_eq, hx, add_assoc, Int.floor_int_add]
      have hz : ⌊f + 1 / 2⌋ = 1 := by
        rw [Int.floor_eq_iff]
        push_cast
        constructor <;> linarith
      rw [hz]
    have e2 : round (-x) = -(n + 1) := by
      rw [round_eq, hx]
      have heq : -((n : α) + f) + 1 / 2 = ((-n - 1 : ℤ) : α) + (3 / 2 - f) := by
        push_cast; ring
      rw [heq, Int.floor_int_add]
      have hz : ⌊(3 : α) / 2 - f⌋ = 0 := by
        rw [Int.floor_eq_iff]
        push_cast
        constructor <;> linarith
      rw [hz]; omega
    rw [e1, e2]

theorem roundHalfEven_neg (x : α) : roundHalfEven (-x) = -roundHalfEven x := by
  unfold roundHalfEven
  by_cases h0 : Int.fract x = 0
  · have hz : ∃ n : ℤ, x = (n : α) := by
      refine ⟨⌊x⌋, ?_⟩
      have := Int.floor_add_fract x
      rw [h0] at this
      linarith
    obtain ⟨n, rfl⟩ := hz
    have h1 : Int.fract ((n : α)) = 0 := Int.fract_intCast n
    have h2 : Int.fract (-(n : α)) = 0 := by
      rw [show (-(n : α)) = ((-n : ℤ) : α) by push_cast; ring]
      exact Int.fract_intCast (-n)
    rw [if_neg (by rw [h2]; norm_num), if_neg (by rw [h1]; norm_num)]
    rw [show (-(n : α)) = ((-n : ℤ) : α) by push_cast; ring]
    rw [round_intCast, round_intCast]
  · by_cases hh : Int.fract x = 1 / 2
    · have hneg : Int.fract (-x) = 1 / 2 := by
        rw [Int.fract_neg h0, hh]; norm_num
      have hfl : ⌊-x⌋ = -⌊x⌋ - 1 := by
        have hx : x = (⌊x⌋ : α) + 1 / 2 := by
          have := Int.floor_add_fract x
          rw [hh] at this
          linarith
        have hmx : -x = ((-⌊x⌋ - 1 : ℤ) : α) + 1 / 2 := by
          push_cast
          linarith [hx]
        have hhalf : ⌊(1 : α) / 2⌋ = 0 := by
          rw [Int.floor_eq_iff]
          norm_num
        rw [hmx, Int.floor_int_add, hhalf]
        omega
      rw [if_pos hh, if_pos hneg, hfl]
      rcases Int.even_or_odd ⌊x⌋ with he | ho
      · obtain ⟨m, hm⟩ := he
        rw [if_neg (by omega)]
        rw [if_pos (by omega)]
        omega
      · obtain ⟨m, hm⟩ := ho
        rw [if_pos (by omega)]
        rw [if_neg (by omega)]
        omega
    · have hneg : Int.fract (-x) ≠ 1 / 2 := by
        rw [Int.fract_neg h0]
        intro hc
        apply hh
        linarith
      rw [if_neg hh, if_neg hneg]
      exact round_neg_of_fract_ne_half h0 hh

theorem pyRound4_neg (x : α) : pyRound4 (-x) = -pyRound4 x := by
  unfold pyRound4
  rw [show -x * 10000 = -(x * 10000) by ring, roundHalfEven_neg]
  push_cast
  ring

end RoundLemmas

/-! ## Data model

A liquidation cluster as consumed by `features.calculate_liquidation_magnet_score`:
a dict with optional `price`, `size`, `side` entries.  A missing key, a `None`
value, or a value rejected by `float(...)` is embedded as `none`. -/

structure Cluster where
  price : Option ℚ
  size : Option ℚ
  side : Option String
deriving DecidableEq

/-- The Hyblock `liquidation_levels` payload: a dict whose `data` key (when
present) holds the ordered cluster list; `clusters_data.get("data", [])`. -/
structure ClustersData where
  data : Option (List Cluster)
deriving DecidableEq

def ClustersData.getData (c : ClustersData) : List Cluster :=
  c.data.getD []

/-! ## Scoring engine: `features.py` -/

/-- `calculate_whale_score`: +1 if delta > 5, -1 if delta < -5, else 0;
0 for `None` / non-coercible input (embedded as `none`). -/
def calculate_whale_score (whale_delta : Option ℚ) : ℚ :=
  match whale_delta with
  | none => 0
  | some d => if 5 < d then 1 else if d < -5 then -1 else 0

/-- `calculate_funding_score`: contrarian; -1 if rate > 0.0001, +1 if
rate < -0.0001, else 0; 0 for absent input. -/
def calculate_funding_score (funding_rate : Option ℚ) : ℚ :=
  match funding_rate with
  | none => 0
  | some r =>
    if (0.0001 : ℚ) < r then -1
    else if r < (-0.0001 : ℚ) then 1
    else 0

/-- `calculate_ls_score`: 0 if ratio ≤ 0 (invalid), -1 if ratio > 2 (crowded
longs), else +1; 0 for absent input. -/
def calculate_ls_score (ls_ratio : Option ℚ) : ℚ :=
  match ls_ratio with
  | none => 0
  | some r =>
    if r ≤ 0 then 0
    else if 2 < r then -1
    else 1

/-! ## Confluence: `calculate_confluence_score` -/

structure ConfluenceWeights where
  magnet : ℚ
  whale : ℚ
  funding : ℚ
  ls : ℚ
deriving DecidableEq

/-- Default weights used when the caller passes `weights=None`. -/
def defaultWeights : ConfluenceWeights :=
  { magnet := 1, whale := 1.5, funding := 1, ls := 1 }

structure ConfluenceResult where
  score : ℚ
  bias : String
  confluence : String
  bullish_signals : Nat
  bearish_signals : Nat
  breakdown : ℚ × ℚ × ℚ × ℚ
deriving DecidableEq

def calculate_confluence_score (magnet_score whale_score funding_score ls_score : ℚ)
    (weights : Option ConfluenceWeights) : ConfluenceResult :=
  let w := weights.getD defaultWeights
  let weighted_sum :=
    magnet_score * w.magnet + whale_score * w.whale +
    funding_score * w.funding + ls_score * w.ls
  let total_weight := w.magnet + w.whale + w.funding + w.ls
  let normalized_score := weighted_sum / total_weight
  let signals := [magnet_score, whale_score, funding_score, ls_score]
  let bullish_count := (signals.filter (fun s => decide ((0.3 : ℚ) < s))).length
  let bearish_count := (signals.filter (fun s => decide (s < (-0.3 : ℚ)))).length
  let bias :=
    if (0.5 : ℚ) < normalized_score then "STRONG_BULLISH"
    else if (0.2 : ℚ) < normalized_score then "BULLISH"
    else if (0.05 : ℚ) < normalized_score then "LEAN_BULLISH"
    else if normalized_score < (-0.5 : ℚ) then "STRONG_BEARISH"
    else if normalized_score < (-0.2 : ℚ) then "BEARISH"
    else if normalized_score < (-0.05 : ℚ) then "LEAN_BEARISH"
    else "NEUTRAL"
  let confluence :=
    if 3 ≤ bullish_count then "HIGH_BULLISH_CONFLUENCE"
    else if 3 ≤ bearish_count then "HIGH_BEARISH_CONFLUENCE"
    else if 2 ≤ bullish_count ∧ bearish_count = 0 then "MODERATE_BULLISH"
    else if 2 ≤ bearish_count ∧ bullish_count = 0 then "MODERATE_BEARISH"
    else "MIXED_SIGNALS"
  { score := pyRound4 normalized_score
    bias := bias
    confluence := confluence
    bullish_signals := bullish_count
    bearish_signals := bearish_count
    breakdown :=
      (pyRound4 magnet_score, pyRound4 whale_score,
       pyRound4 funding_score, pyRound4 ls_score) }

/-! ## Liquidation magnet score: `calculate_liquidation_magnet_score`

The loop body of the Python function, per cluster: the returned pair is the
contribution to `(bullish_weighted_sum, bearish_weighted_sum)`.  Clusters with
missing / non-coercible fields, non-positive size, or a price outside the
range filter contribute `(0, 0)`. -/

def clusterTerm (current_price range_low range_high : ℚ) (c : Cluster) : ℚ × ℚ :=
  match c.price, c.size, c.side with
  | some price, some size, some side =>
    if size ≤ 0 then (0, 0)
    else if price < range_low ∨ range_high < price then (0, 0)
    else
      let distance_pct := |price - current_price| / current_price
      let distance_weight := 1 / (1 + distance_pct * 10)
      let weighted_size := size * distance_weight
      if current_price < price ∧ side = "short" then (weighted_size, 0)
      else if price < current_price ∧ side = "long" then (0, weighted_size)
      else if current_price ≤ price ∧ side = "short" then (weighted_size, 0)
      else if price ≤ current_price ∧ side = "long" then (0, weighted_size)
      else (0, 0)
  | _, _, _ => (0, 0)

/-- `math.log1p` -/
noncomputable def log1p (x : ℝ) : ℝ := Real.log (1 + x)

/-- The default `range_pct` argument. -/
def defaultRangePct : ℚ := 0.15

/-- `calculate_liquidation_magnet_score(current_price, clusters, range_pct)`.
`current_price = none` embeds Python `None`. -/
noncomputable def calculate_liquidation_magnet_score
    (current_price : Option ℚ) (clusters : List Cluster) (range_pct : ℚ) : ℝ :=
  match current_price with
  | none => 0
  | some cp =>
    if cp ≤ 0 then 0
    else if clusters = [] then 0
    else
      let range_low := cp * (1 - range_pct)
      let range_high := cp * (1 + range_pct)
      let bullish_weighted_sum :=
        (clusters.map (fun c => (clusterTerm cp range_low range_high c).1)).sum
      let bearish_weighted_sum :=
        (clusters.map (fun c => (clusterTerm cp range_low range_high c).2)).sum
      let total := bullish_weighted_sum + bearish_weighted_sum
      if total = 0 then 0
      else
        letI : DecidableEq ℝ := Classical.decEq ℝ
        let raw_score : ℝ :=
          ((bullish_weighted_sum - bearish_weighted_sum : ℚ) : ℝ) / ((total : ℚ) : ℝ)
        let reference_volume : ℝ := 500
        let magnitude_factor :=
          min 1 (log1p (((total : ℚ) : ℝ) / reference_volume) / log1p 5)
        let scaled_score := raw_score * magnitude_factor
        pyRound4 (Real.tanh (scaled_score * 2))

theorem abs_tanh_lt_one (x : ℝ) : |Real.tanh x| < 1 := by
  rw [Real.tanh_eq_sinh_div_cosh, abs_div, abs_of_pos (Real.cosh_pos x),
    div_lt_one (Real.cosh_pos x), abs_lt]
  constructor
  · have h : Real.sinh (-x) < Real.cosh (-x) := Real.sinh_lt_cosh (-x)
    rw [Real.sinh_neg, Real.cosh_neg] at h
    linarith
  · exact Real.sinh_lt_cosh x

/-- Every branch of the magnet score returns either the literal 0 or a rounded
`tanh` value. -/
theorem magnet_score_cases (cp : ℚ) (clusters : List Cluster) (r : ℚ) :
    calculate_liquidation_magnet_score (some cp) clusters r = 0 ∨
    ∃ z : ℝ, calculate_liquidation_magnet_score (some cp) clusters r =
      pyRound4 (Real.tanh z) := by
  simp only [calculate_liquidation_magnet_score]
  split_ifs
  · exact Or.inl rfl
  · exact Or.inl rfl
  · exact Or.inl rfl
  · exact Or.inr ⟨_, rfl⟩

/-- C1: for every current price and cluster list the magnet score lies in
[-1, 1], and it is exactly 0 when the price is `None`, when the price is
non-positive, or when the cluster list is empty. -/
theorem magnet_score_bounded_and_degenerate
    (current_price : Option ℚ) (clusters : List Cluster) (range_pct : ℚ) :
    |calculate_liquidation_magnet_score current_price clusters range_pct| ≤ 1 ∧
    (current_price = none →
      calculate_liquidation_magnet_score current_price clusters range_pct = 0) ∧
    (∀ cp : ℚ, current_price = some cp → cp ≤ 0 →
      calculate_liquidation_magnet_score current_price clusters range_pct = 0) ∧
    (clusters = [] →
      calculate_liquidation_magnet_score current_price clusters range_pct = 0) := by
  cases current_price with
  | none =>
    refine ⟨?_, ?_, ?_, ?_⟩ <;>
      simp [calculate_liquidation_magnet_score]
  | some cp =>
    refine ⟨?_, ?_, ?_, ?_⟩
    · rcases magnet_score_cases cp clusters range_pct with h | ⟨z, h⟩
      · rw [h]; norm_num
      · rw [h]
        exact abs_pyRound4_le_one (abs_tanh_lt_one z).le
    · intro h
      exact absurd h (by simp)
    · intro cp2 hcp hle
      have : cp = cp2 := by injection hcp
      subst this
      simp only [calculate_liquidation_magnet_score]
      rw [if_pos hle]
    · intro h
      subst h
      simp [calculate_liquidation_magnet_score]

/-- Concrete instance of C1, discharging its conditional parts. -/
theorem magnet_score_bounded_and_degenerate_witness :
    |calculate_liquidation_magnet_score (some (-5)) [] defaultRangePct| ≤ 1 ∧
    calculate_liquidation_magnet_score (some (-5)) [] defaultRangePct = 0 :=
  ⟨(magnet_score_bounded_and_degenerate (some (-5)) [] defaultRangePct).1,
   (magnet_score_bounded_and_degenerate (some (-5)) [] defaultRangePct).2.2.1
     (-5) rfl (by norm_num)⟩

/-- C6: the whale, funding and L/S scores only ever return -1, 0 or 1, return
0 on absent input, and funding at +0.0002 / -0.0002 / +0.00005 scores
-1 / +1 / 0. -/
theorem institutional_scores_total :
    (∀ w : Option ℚ, calculate_whale_score w = -1 ∨ calculate_whale_score w = 0 ∨
      calculate_whale_score w = 1) ∧
    (∀ f : Option ℚ, calculate_funding_score f = -1 ∨ calculate_funding_score f = 0 ∨
      calculate_funding_score f = 1) ∧
    (∀ l : Option ℚ, calculate_ls_score l = -1 ∨ calculate_ls_score l = 0 ∨
      calculate_ls_score l = 1) ∧
    calculate_whale_score none = 0 ∧
    calculate_funding_score none = 0 ∧
    calculate_ls_score none = 0 ∧
    calculate_funding_score (some 0.0002) = -1 ∧
    calculate_funding_score (some (-0.0002)) = 1 ∧
    calculate_funding_score (some 0.00005) = 0 := by
  refine ⟨?_, ?_, ?_, rfl, rfl, rfl, ?_, ?_, ?_⟩
  rotate_left 3
  · simp only [calculate_funding_score]
    norm_num
  · simp only [calculate_funding_score]
    norm_num
  · simp only [calculate_funding_score]
    norm_num
  · intro w
    cases w with
    | none => exact Or.inr (Or.inl rfl)
    | some d =>
      simp only [calculate_whale_score]
      split_ifs <;> tauto
  · intro f
    cases f with
    | none => exact Or.inr (Or.inl rfl)
    | some r =>
      simp only [calculate_funding_score]
      split_ifs <;> tauto
  · intro l
    cases l with
    | none => exact Or.inr (Or.inl rfl)
    | some r =>
      simp only [calculate_ls_score]
      split_ifs <;> tauto

/-- C8: with the default weights (summing to 4.5), sub-scores in [-1, 1] give
a combined confluence score of magnitude at most 1. -/
theorem confluence_score_bounded (m w f l : ℚ)
    (hm : |m| ≤ 1) (hw : |w| ≤ 1) (hf : |f| ≤ 1) (hl : |l| ≤ 1) :
    |(calculate_confluence_score m w f l none).score| ≤ 1 := by
  have hm2 := abs_le.mp hm
  have hw2 := abs_le.mp hw
  have hf2 := abs_le.mp hf
  have hl2 := abs_le.mp hl
  simp only [calculate_confluence_score, Option.getD_none, defaultWeights]
  apply abs_pyRound4_le_one
  rw [abs_le]
  constructor
  · rw [le_div_iff (by norm_num : (0 : ℚ) < 1 + 1.5 + 1 + 1)]
    linarith
  · rw [div_le_iff (by norm_num : (0 : ℚ) < 1 + 1.5 + 1 + 1)]
    linarith

/-- Concrete instance of C8 at the extreme corner. -/
theorem confluence_score_bounded_witness :
    |(calculate_confluence_score 1 1 1 1 none).score| ≤ 1 :=
  confluence_score_bounded 1 1 1 1 (by decide) (by decide) (by decide) (by decide)

/-! ## C10: side matching is case-sensitive -/

/-- A cluster whose `side` is absent or exactly the lowercase strings the code
compares against.  Any other string (e.g. `"SHORT"`, `"Long"`) is unknown. -/
def knownSide (c : Cluster) : Bool :=
  match c.side with
  | none => true
  | some s => s == "short" || s == "long"

def keepKnownSides (clusters : List Cluster) : List Cluster :=
  clusters.filter knownSide

theorem clusterTerm_unknown_side (cp lo hi : ℚ) (c : Cluster)
    (h : knownSide c = false) : clusterTerm cp lo hi c = (0, 0) := by
  rcases c with ⟨p, s, sd⟩
  cases sd with
  | none => simp [knownSide] at h
  | some str =>
    have hs : str ≠ "short" ∧ str ≠ "long" := by
      constructor <;> intro hstr <;> subst hstr <;> simp [knownSide] at h
    cases p with
    | none => rfl
    | some pv =>
      cases s with
      | none => rfl
      | some sv =>
        simp only [clusterTerm]
        simp [hs.1, hs.2]

theorem map_sum_over_filter (p : Cluster → Bool) (g : Cluster → ℚ)
    (hg : ∀ c, p c = false → g c = 0) (l : List Cluster) :
    ((l.filter p).map g).sum = (l.map g).sum := by
  induction l with
  | nil => rfl
  | cons c t ih =>
    by_cases hc : p c
    · simp [List.filter_cons, hc, ih]
    · have h0 := hg c (by simpa using hc)
      simp [List.filter_cons, hc, ih, h0]

/-- C10: clusters whose side string is anything other than the exact lowercase
"short" / "long" contribute nothing, so the magnet score over any list equals
the score over the list with those clusters removed. -/
theorem magnet_score_side_case_sensitive
    (current_price : Option ℚ) (clusters : List Cluster) (range_pct : ℚ) :
    calculate_liquidation_magnet_score current_price clusters range_pct =
    calculate_liquidation_magnet_score current_price (keepKnownSides clusters)
      range_pct := by
  cases current_price with
  | none => rfl
  | some cp =>
    simp only [calculate_liquidation_magnet_score, keepKnownSides]
    by_cases hcp : cp ≤ 0
    · rw [if_pos hcp, if_pos hcp]
    · rw [if_neg hcp, if_neg hcp]
      have hbull := map_sum_over_filter knownSide
        (fun c => (clusterTerm cp (cp * (1 - range_pct)) (cp * (1 + range_pct)) c).1)
        (fun c hc => by
          show (clusterTerm cp (cp * (1 - range_pct)) (cp * (1 + range_pct)) c).1 = 0
          rw [clusterTerm_unknown_side _ _ _ c hc]) clusters
      have hbear := map_sum_over_filter knownSide
        (fun c => (clusterTerm cp (cp * (1 - range_pct)) (cp * (1 + range_pct)) c).2)
        (fun c hc => by
          show (clusterTerm cp (cp * (1 - range_pct)) (cp * (1 + range_pct)) c).2 = 0
          rw [clusterTerm_unknown_side _ _ _ c hc]) clusters
      by_cases hnil : clusters = []
      · subst hnil
        rfl
      · rw [if_neg hnil]
        by_cases hfnil : List.filter knownSide clusters = []
        · rw [if_pos hfnil]
          have hb0 : ((clusters.map
              (fun c => (clusterTerm cp (cp * (1 - range_pct))
                (cp * (1 + range_pct)) c).1)).sum : ℚ) = 0 := by
            rw [← hbull, hfnil]
            rfl
          have hr0 : ((clusters.map
              (fun c => (clusterTerm cp (cp * (1 - range_pct))
                (cp * (1 + range_pct)) c).2)).sum : ℚ) = 0 := by
            rw [← hbear, hfnil]
            rfl
          rw [hb0, hr0]
          norm_num
        · rw [if_neg hfnil, hbull, hbear]

/-! ## C9: mirror symmetry of the magnet score -/

/-- Swap `"short"` and `"long"`; other strings are left alone (they contribute
nothing on either side). -/
def flipSide (s : String) : String :=
  if s = "short" then "long" else if s = "long" then "short" else s

/-- Reflect a cluster's price around the current price and flip its side. -/
def mirrorCluster (cp : ℚ) (c : Cluster) : Cluster :=
  { price := c.price.map (fun p => 2 * cp - p)
    size := c.size
    side := c.side.map flipSide }

def mirrorClusters (cp : ℚ) (clusters : List Cluster) : List Cluster :=
  clusters.map (mirrorCluster cp)

theorem clusterTerm_mirror (cp r : ℚ) (c : Cluster) :
    clusterTerm cp (cp * (1 - r)) (cp * (1 + r)) (mirrorCluster cp c) =
    ((clusterTerm cp (cp * (1 - r)) (cp * (1 + r)) c).2,
     (clusterTerm cp (cp * (1 - r)) (cp * (1 + r)) c).1) := by
  rcases c with ⟨p, s, sd⟩
  cases p with
  | none => cases s <;> cases sd <;> rfl
  | some pv =>
    cases s with
    | none => cases sd <;> rfl
    | some sv =>
      cases sd with
      | none => rfl
      | some str =>
        have emir : mirrorCluster cp ⟨some pv, some sv, some str⟩ =
            ⟨some (2 * cp - pv), some sv, some (flipSide str)⟩ := rfl
        rw [emir]
        simp only [clusterTerm]
        by_cases hsz : sv ≤ 0
        · rw [if_pos hsz, if_pos hsz]
        · rw [if_neg hsz, if_neg hsz]
          by_cases hr : pv < cp * (1 - r) ∨ cp * (1 + r) < pv
          · have hr2 : 2 * cp - pv < cp * (1 - r) ∨ cp * (1 + r) < 2 * cp - pv := by
              rcases hr with h | h
              · right; linarith
              · left; linarith
            rw [if_pos hr2, if_pos hr]
          · have hr2 : ¬(2 * cp - pv < cp * (1 - r) ∨ cp * (1 + r) < 2 * cp - pv) := by
              push_neg at hr ⊢
              constructor <;> linarith [hr.1, hr.2]
            rw [if_neg hr2, if_neg hr]
            have habs : |2 * cp - pv - cp| = |pv - cp| := by
              rw [show 2 * cp - pv - cp = -(pv - cp) by ring, abs_neg]
            rw [habs]
            by_cases hshort : str = "short"
            · subst hshort
              have hflip : flipSide "short" = "long" := rfl
              rw [hflip]
              rcases lt_trichotomy pv cp with hlt | hmid | hgt
              · have a1 : ¬cp < pv := by linarith
                have a2 : ¬cp ≤ pv := by linarith
                have a3 : ¬2 * cp - pv < cp := by linarith
                have a4 : ¬2 * cp - pv ≤ cp := by linarith
                have a5 : pv ≤ cp := le_of_lt hlt
                have a6 : cp < 2 * cp - pv := by linarith
                simp +decide [a1, a2, a3, a4, a5, a6, hlt]
              · subst hmid
                have a1 : ¬pv < pv := lt_irrefl pv
                have a2 : ¬pv < 2 * pv - pv := by linarith
                have a3 : ¬2 * pv - pv < pv := by linarith
                have a4 : pv ≤ 2 * pv - pv := by linarith
                have a5 : 2 * pv - pv ≤ pv := by linarith
                have a6 : pv ≤ pv := le_refl pv
                simp +decide [a1, a2, a3, a4, a5, a6]
              · have a1 : ¬pv < cp := by linarith
                have a2 : ¬pv ≤ cp := by linarith
                have a3 : ¬cp < 2 * cp - pv := by linarith
                have a4 : ¬cp ≤ 2 * cp - pv := by linarith
                have a5 : cp ≤ pv := le_of_lt hgt
                have a6 : 2 * cp - pv < cp := by linarith
                have a7 : 2 * cp - pv ≤ cp := le_of_lt a6
                simp +decide [a1, a2, a3, a4, a5, a6, a7, hgt]
            · by_cases hlong : str = "long"
              · subst hlong
                have hflip : flipSide "long" = "short" := rfl
                rw [hflip]
                rcases lt_trichotomy pv cp with hlt | hmid | hgt
                · have a1 : ¬cp < pv := by linarith
                  have a2 : ¬cp ≤ pv := by linarith
                  have a3 : ¬2 * cp - pv < cp := by linarith
                  have a4 : ¬2 * cp - pv ≤ cp := by linarith
                  have a5 : pv ≤ cp := le_of_lt hlt
                  have a6 : cp < 2 * cp - pv := by linarith
                  have a7 : cp ≤ 2 * cp - pv := le_of_lt a6
                  simp +decide [a1, a2, a3, a4, a5, a6, a7, hlt]
                · subst hmid
                  have a1 : ¬pv < pv := lt_irrefl pv
                  have a2 : ¬pv < 2 * pv - pv := by linarith
                  have a3 : ¬2 * pv - pv < pv := by linarith
                  have a4 : pv ≤ 2 * pv - pv := by linarith
                  have a5 : 2 * pv - pv ≤ pv := by linarith
                  have a6 : pv ≤ pv := le_refl pv
                  simp +decide [a1, a2, a3, a4, a5, a6]
                · have a1 : ¬pv < cp := by linarith
                  have a2 : ¬pv ≤ cp := by linarith
                  have a3 : ¬cp < 2 * cp - pv := by linarith
                  have a4 : ¬cp ≤ 2 * cp - pv := by linarith
                  have a5 : cp ≤ pv := le_of_lt hgt
                  have a6 : 2 * cp - pv < cp := by linarith
                  have a7 : 2 * cp - pv ≤ cp := le_of_lt a6
                  simp +decide [a1, a2, a3, a4, a5, a6, a7, hgt]
              · have hflip : flipSide str = str := by
                  simp [flipSide, hshort, hlong]
                rw [hflip]
                simp [hshort, hlong]

/-- C9: for a positive current price, mirroring every cluster's price around
the current price and flipping its side negates the magnet score exactly
(banker's rounding commutes with negation). -/
theorem magnet_score_mirror (cp : ℚ) (hcp : 0 < cp)
    (clusters : List Cluster) (range_pct : ℚ) :
    calculate_liquidation_magnet_score (some cp) (mirrorClusters cp clusters)
      range_pct =
    - calculate_liquidation_magnet_score (some cp) clusters range_pct := by
  simp only [calculate_liquidation_magnet_score, mirrorClusters]
  rw [if_neg (not_le.mpr hcp), if_neg (not_le.mpr hcp)]
  have hmap1 : ((clusters.map (mirrorCluster cp)).map
      (fun c => (clusterTerm cp (cp * (1 - range_pct)) (cp * (1 + range_pct)) c).1)).sum =
      (clusters.map
        (fun c => (clusterTerm cp (cp * (1 - range_pct)) (cp * (1 + range_pct)) c).2)).sum := by
    rw [List.map_map]
    refine congrArg List.sum (List.map_congr_left ?_)
    intro c hc
    show (clusterTerm cp (cp * (1 - range_pct)) (cp * (1 + range_pct))
      (mirrorCluster cp c)).1 = _
    rw [clusterTerm_mirror]
  have hmap2 : ((clusters.map (mirrorCluster cp)).map
      (fun c => (clusterTerm cp (cp * (1 - range_pct)) (cp * (1 + range_pct)) c).2)).sum =
      (clusters.map
        (fun c => (clusterTerm cp (cp * (1 - range_pct)) (cp * (1 + range_pct)) c).1)).sum := by
    rw [List.map_map]
    refine congrArg List.sum (List.map_congr_left ?_)
    intro c hc
    show (clusterTerm cp (cp * (1 - range_pct)) (cp * (1 + range_pct))
      (mirrorCluster cp c)).2 = _
    rw [clusterTerm_mirror]
  by_cases hn : clusters = []
  · subst hn
    simp
  · rw [if_neg (by simpa using hn), if_neg hn, hmap1, hmap2]
    set B := (clusters.map
      (fun c => (clusterTerm cp (cp * (1 - range_pct)) (cp * (1 + range_pct)) c).1)).sum with hB
    set S := (clusters.map
      (fun c => (clusterTerm cp (cp * (1 - range_pct)) (cp * (1 + range_pct)) c).2)).sum with hS
    rw [add_comm S B]
    by_cases ht : B + S = 0
    · rw [if_pos ht, if_pos ht]
      norm_num
    · rw [if_neg ht, if_neg ht]
      have e1 : ((S - B : ℚ) : ℝ) = -((B - S : ℚ) : ℝ) := by push_cast; ring
      rw [e1, neg_div, neg_mul, neg_mul, Real.tanh_neg, pyRound4_neg]

/-- Concrete instance of C9. -/
theorem magnet_score_mirror_witness :
    calculate_liquidation_magnet_score (some 1) (mirrorClusters 1 []) defaultRangePct =
    - calculate_liquidation_magnet_score (some 1) [] defaultRangePct :=
  magnet_score_mirror 1 (by norm_num) [] defaultRangePct

/-! ## Durable store: `snapshot_persistence.py`

The SQLite table is embedded as the ordered list of its rows plus the
`AUTOINCREMENT` counter (which starts at 1).  `json.dumps`/`json.loads` of the
cluster list is an exact round trip, so `clusters_json` stores the list
itself.  SQLite compares the `timestamp` TEXT column lexicographically, which
is `String` order on the ISO-8601 strings the code writes. -/

structure SnapshotRow where
  id : Nat
  timestamp : String
  symbol : String
  price : ℚ
  clusters_count : Nat
  clusters_json : List Cluster
deriving DecidableEq

structure DB where
  rows : List SnapshotRow
  next_id : Nat
deriving DecidableEq

def DB.empty : DB := { rows := [], next_id := 1 }

/-- Rows hold ids that were issued before the current counter value. -/
def DB.WF (db : DB) : Prop := ∀ r ∈ db.rows, r.id < db.next_id

instance (db : DB) : Decidable db.WF :=
  inferInstanceAs (Decidable (∀ r ∈ db.rows, r.id < db.next_id))

/-- Python `str.upper()`, embedded character-wise.  (`String.toUpper` is
definitionaly the same map but its `String.mapAux` loop does not reduce in the
kernel, so the per-character form is used.) -/
def pyUpper (s : String) : String := ⟨s.data.map Char.toUpper⟩

/-- `save_snapshot(symbol, price, clusters_data)`; the capture timestamp is an
explicit argument.  Note the stored symbol is `symbol.upper()`. -/
def save_snapshot (db : DB) (ts symbol : String) (price : ℚ)
    (clusters_data : ClustersData) : DB × Nat :=
  let clusters := clusters_data.getData
  let clusters_count := clusters.length
  let row : SnapshotRow :=
    { id := db.next_id, timestamp := ts, symbol := pyUpper symbol
      price := price, clusters_count := clusters_count, clusters_json := clusters }
  ({ rows := db.rows ++ [row], next_id := db.next_id + 1 }, db.next_id)

def get_snapshot_by_id (db : DB) (snapshot_id : Nat) : Option SnapshotRow :=
  db.rows.find? (fun r => r.id == snapshot_id)

/-- `cleanup_old_snapshots(days)`: `DELETE FROM snapshots WHERE timestamp < cutoff`
where `cutoff = (utcnow() - days).isoformat() + "Z"` is an explicit argument.
Returns the updated table, the deleted row count, and whether `VACUUM` ran. -/
def cleanup_old_snapshots (db : DB) (cutoff : String) : DB × Nat × Bool :=
  let deleted := (db.rows.filter (fun r => decide (r.timestamp < cutoff))).length
  let remaining := db.rows.filter (fun r => !decide (r.timestamp < cutoff))
  ({ rows := remaining, next_id := db.next_id }, deleted, decide (0 < deleted))

theorem find_append_fresh (rows : List SnapshotRow) (n : Nat) (row : SnapshotRow)
    (hrow : row.id = n) (h : ∀ r ∈ rows, r.id < n) :
    (rows ++ [row]).find? (fun r => r.id == n) = some row := by
  induction rows with
  | nil =>
    rw [List.nil_append]
    exact List.find?_cons_of_pos _ (by simp [hrow])
  | cons a t ih =>
    have hlt := h a (List.mem_cons_self a t)
    rw [List.cons_append, List.find?_cons_of_neg _ (by simp; omega)]
    exact ih (fun r hr => h r (List.mem_cons_of_mem a hr))

/-- C4 as stated is false: the store uppercases the symbol, so the round trip
returns `"SOL"` for the symbol `"sol"` that was passed in. -/
theorem save_roundtrip_symbol_not_preserved :
    ((get_snapshot_by_id (save_snapshot DB.empty "2025-01-01T00:00:00Z" "sol" 100
        { data := some [] }).1
      (save_snapshot DB.empty "2025-01-01T00:00:00Z" "sol" 100
        { data := some [] }).2).map (fun r => r.symbol)) = some "SOL" ∧
    ((get_snapshot_by_id (save_snapshot DB.empty "2025-01-01T00:00:00Z" "sol" 100
        { data := some [] }).1
      (save_snapshot DB.empty "2025-01-01T00:00:00Z" "sol" 100
        { data := some [] }).2).map (fun r => r.symbol)) ≠ some "sol" := by
  constructor
  · decide
  · decide

/-- C4 (amended): the round trip preserves the uppercased symbol, the price,
and the cluster list under the payload's `data` key, in order. -/
theorem save_roundtrip_upper (db : DB) (hwf : db.WF) (ts symbol : String)
    (price : ℚ) (cd : ClustersData) (l : List Cluster) (hdata : cd.data = some l) :
    get_snapshot_by_id (save_snapshot db ts symbol price cd).1
      (save_snapshot db ts symbol price cd).2 =
    some { id := db.next_id, timestamp := ts, symbol := pyUpper symbol
           price := price, clusters_count := l.length, clusters_json := l } := by
  have hget : cd.getData = l := by
    simp [ClustersData.getData, hdata]
  simp only [save_snapshot, get_snapshot_by_id, hget]
  exact find_append_fresh db.rows db.next_id _ rfl hwf

/-- Concrete instance of C4 (amended). -/
theorem save_roundtrip_upper_witness :
    get_snapshot_by_id (save_snapshot DB.empty "t" "BTC" 50000 { data := some [] }).1
      (save_snapshot DB.empty "t" "BTC" 50000 { data := some [] }).2 =
    some { id := 1, timestamp := "t", symbol := pyUpper "BTC"
           price := 50000, clusters_count := 0, clusters_json := [] } :=
  save_roundtrip_upper DB.empty (by decide) "t" "BTC" 50000 { data := some [] } [] rfl

/-- C7: the prune deletes exactly the rows strictly older than the cutoff
(keeping the rest in order), returns the number deleted, does nothing and
skips `VACUUM` when no rows qualify, and a second run with the same cutoff
deletes 0 rows and does not compact. -/
theorem cleanup_old_snapshots_spec (db : DB) (cutoff : String) :
    (cleanup_old_snapshots db cutoff).1.rows
      = db.rows.filter (fun row => !decide (row.timestamp < cutoff)) ∧
    (cleanup_old_snapshots db cutoff).2.1
      = (db.rows.filter (fun row => decide (row.timestamp < cutoff))).length ∧
    ((∀ row ∈ db.rows, ¬row.timestamp < cutoff) →
      (cleanup_old_snapshots db cutoff).2.1 = 0 ∧
      (cleanup_old_snapshots db cutoff).2.2 = false ∧
      (cleanup_old_snapshots db cutoff).1 = db) ∧
    (cleanup_old_snapshots (cleanup_old_snapshots db cutoff).1 cutoff).2.1 = 0 ∧
    (cleanup_old_snapshots (cleanup_old_snapshots db cutoff).1 cutoff).2.2 = false := by
  have hsecond : ((cleanup_old_snapshots db cutoff).1.rows.filter
      (fun row => decide (row.timestamp < cutoff))) = [] := by
    rw [List.filter_eq_nil_iff]
    intro a ha
    have h2 := (List.mem_filter.mp ha).2
    simp only [Bool.not_eq_true', decide_eq_false_iff_not] at h2
    simpa using h2
  refine ⟨rfl, rfl, ?_, ?_, ?_⟩
  · intro h
    have hnone : db.rows.filter (fun row => decide (row.timestamp < cutoff)) = [] := by
      rw [List.filter_eq_nil_iff]
      intro a ha
      simpa using h a ha
    refine ⟨?_, ?_, ?_⟩
    · show (db.rows.filter (fun row => decide (row.timestamp < cutoff))).length = 0
      rw [hnone]
      rfl
    · show decide (0 < (db.rows.filter
        (fun row => decide (row.timestamp < cutoff))).length) = false
      rw [hnone]
      rfl
    · show ({ rows := db.rows.filter (fun row => !decide (row.timestamp < cutoff)),
              next_id := db.next_id } : DB) = db
      have hall : db.rows.filter (fun row => !decide (row.timestamp < cutoff))
          = db.rows := by
        rw [List.filter_eq_self]
        intro a ha
        simpa using h a ha
      rw [hall]
  · show ((cleanup_old_snapshots db cutoff).1.rows.filter
      (fun row => decide (row.timestamp < cutoff))).length = 0
    rw [hsecond]
    rfl
  · show decide (0 < ((cleanup_old_snapshots db cutoff).1.rows.filter
      (fun row => decide (row.timestamp < cutoff))).length) = false
    rw [hsecond]
    rfl

/-- Concrete instance of C7 at a store where nothing qualifies. -/
theorem cleanup_old_snapshots_spec_witness :
    (cleanup_old_snapshots DB.empty "2020-01-01T00:00:00Z").2.1 = 0 ∧
    (cleanup_old_snapshots DB.empty "2020-01-01T00:00:00Z").2.2 = false ∧
    (cleanup_old_snapshots DB.empty "2020-01-01T00:00:00Z").1 = DB.empty :=
  (cleanup_old_snapshots_spec DB.empty "2020-01-01T00:00:00Z").2.2.1
    (by intro row hr; cases hr)

/-! ## Ephemeral cache: `snapshot_tracker.SnapshotTracker`

`deque(maxlen=N)`: appending to a full deque first evicts the oldest entry.
The capture timestamp is an explicit argument; `copy.deepcopy` is identity in
a value semantics. -/

structure TrackerSnapshot where
  timestamp : String
  price_at_snapshot : ℚ
  data : ClustersData
deriving DecidableEq

structure SnapshotTracker where
  max_snapshots : Nat
  snapshots : List TrackerSnapshot
deriving DecidableEq

def SnapshotTracker.empty (max_snapshots : Nat) : SnapshotTracker :=
  { max_snapshots := max_snapshots, snapshots := [] }

/-- `save(hyblock_data, current_price)`: wrap, append (evicting from the left
past capacity, as `deque(maxlen=...)` does), return the new count. -/
def SnapshotTracker.save (t : SnapshotTracker) (ts : String)
    (hyblock_data : ClustersData) (current_price : ℚ) : SnapshotTracker × Nat :=
  let snapshot : TrackerSnapshot :=
    { timestamp := ts, price_at_snapshot := current_price, data := hyblock_data }
  let appended := t.snapshots ++ [snapshot]
  let snapshots := appended.drop (appended.length - t.max_snapshots)
  ({ max_snapshots := t.max_snapshots, snapshots := snapshots }, snapshots.length)

def SnapshotTracker.get_latest (t : SnapshotTracker) : Option TrackerSnapshot :=
  t.snapshots.getLast?

def toTrackerSnapshot (i : String × ClustersData × ℚ) : TrackerSnapshot :=
  { timestamp := i.1, price_at_snapshot := i.2.2, data := i.2.1 }

/-- Iterate `save` over a list of (timestamp, data, price) triples. -/
def saveAll (t : SnapshotTracker) (items : List (String × ClustersData × ℚ)) :
    SnapshotTracker :=
  items.foldl (fun acc i => (acc.save i.1 i.2.1 i.2.2).1) t

/-- The suffix of `l` of length at most `n`: what a `deque(maxlen := n)` holds
after the pushes `l`. -/
def windowed (l : List TrackerSnapshot) (n : Nat) : List TrackerSnapshot :=
  l.drop (l.length - n)

theorem windowed_concat (l : List TrackerSnapshot) (x : TrackerSnapshot) (n : Nat) :
    windowed (windowed l n ++ [x]) n = windowed (l ++ [x]) n := by
  unfold windowed
  rcases Nat.eq_zero_or_pos n with hn | hn
  · subst hn
    rw [List.drop_eq_nil_of_le (by simp), List.drop_eq_nil_of_le (by simp)]
  · by_cases hl : l.length ≤ n
    · rw [Nat.sub_eq_zero_of_le hl, List.drop_zero]
    · push_neg at hl
      have h1 : (l.drop (l.length - n)).length = n := by
        rw [List.length_drop]
        omega
      have h2 : (l.drop (l.length - n) ++ [x]).length - n = 1 := by
        rw [List.length_append, h1]
        simp
      rw [h2, List.drop_append_of_le_length (by omega : 1 ≤ (l.drop (l.length - n)).length),
        List.drop_drop]
      have h3 : (l ++ [x]).length - n = l.length + 1 - n := by
        rw [List.length_append]
        rfl
      rw [h3, List.drop_append_of_le_length (by omega : l.length + 1 - n ≤ l.length)]
      have h4 : l.length - n + 1 = l.length + 1 - n := by omega
      rw [h4]

theorem save_snapshots_eq (t : SnapshotTracker) (ts : String) (d : ClustersData)
    (p : ℚ) :
    (t.save ts d p).1.snapshots =
      windowed (t.snapshots ++
        [{ timestamp := ts, price_at_snapshot := p, data := d }]) t.max_snapshots ∧
    (t.save ts d p).1.max_snapshots = t.max_snapshots :=
  ⟨rfl, rfl⟩

theorem saveAll_snapshots (t : SnapshotTracker)
    (hlen : t.snapshots.length ≤ t.max_snapshots)
    (items : List (String × ClustersData × ℚ)) :
    (saveAll t items).snapshots =
      windowed (t.snapshots ++ items.map toTrackerSnapshot) t.max_snapshots ∧
    (saveAll t items).max_snapshots = t.max_snapshots := by
  induction items using List.reverseRecOn with
  | nil =>
    refine ⟨?_, rfl⟩
    show t.snapshots = windowed (t.snapshots ++ []) t.max_snapshots
    rw [List.append_nil, windowed, Nat.sub_eq_zero_of_le hlen, List.drop_zero]
  | append_singleton is i ih =>
    have hfold : saveAll t (is ++ [i]) = ((saveAll t is).save i.1 i.2.1 i.2.2).1 := by
      unfold saveAll
      rw [List.foldl_append]
      rfl
    constructor
    · rw [hfold, (save_snapshots_eq _ _ _ _).1, ih.1, ih.2]
      rw [show ({ timestamp := i.1, price_at_snapshot := i.2.2, data := i.2.1 } :
        TrackerSnapshot) = toTrackerSnapshot i from rfl]
      rw [windowed_concat, List.append_assoc]
      rw [show [toTrackerSnapshot i] = ([i].map toTrackerSnapshot) from rfl,
        ← List.map_append]
    · rw [hfold, (save_snapshots_eq _ _ _ _).2, ih.2]

/-- C5: starting from an empty tracker of capacity N ≥ 1, after N + k saves
(k ≥ 1) exactly the N most recent entries remain, the k oldest having been
evicted in FIFO order; and immediately after any save, `get_latest` returns
the entry just saved. -/
theorem tracker_fifo_window_and_latest :
    (∀ (N k : Nat) (items : List (String × ClustersData × ℚ)),
      1 ≤ N → 1 ≤ k → items.length = N + k →
      (saveAll (SnapshotTracker.empty N) items).snapshots =
        (items.drop k).map toTrackerSnapshot) ∧
    (∀ (t : SnapshotTracker) (ts : String) (d : ClustersData) (p : ℚ),
      1 ≤ t.max_snapshots →
      (t.save ts d p).1.get_latest =
        some { timestamp := ts, price_at_snapshot := p, data := d }) := by
  constructor
  · intro N k items hN hk hlen
    have h := (saveAll_snapshots (SnapshotTracker.empty N) (Nat.zero_le N) items).1
    rw [h]
    show windowed ([] ++ items.map toTrackerSnapshot) N = _
    rw [List.nil_append, windowed, List.length_map, hlen,
      show N + k - N = k from by omega, List.map_drop]
  · intro t ts d p hN
    show ((t.save ts d p).1.snapshots).getLast? = _
    rw [(save_snapshots_eq t ts d p).1]
    unfold windowed
    set x : TrackerSnapshot := { timestamp := ts, price_at_snapshot := p, data := d }
    by_cases hl : (t.snapshots ++ [x]).length ≤ t.max_snapshots
    · rw [Nat.sub_eq_zero_of_le hl, List.drop_zero, List.getLast?_concat]
    · push_neg at hl
      rw [List.length_append]
      have hle : t.snapshots.length + [x].length - t.max_snapshots ≤
          t.snapshots.length := by
        have h1 : [x].length = 1 := rfl
        omega
      rw [List.drop_append_of_le_length hle, List.getLast?_concat]

/-- Concrete instance of C5 with capacity 1 and two pushes. -/
theorem tracker_fifo_window_and_latest_witness :
    (saveAll (SnapshotTracker.empty 1)
        [("t1", { data := some [] }, 1), ("t2", { data := none }, 2)]).snapshots =
      ([("t1", ({ data := some [] } : ClustersData), (1 : ℚ)),
        ("t2", { data := none }, 2)].drop 1).map toTrackerSnapshot ∧
    ((SnapshotTracker.empty 1).save "t3" { data := none } 3).1.get_latest =
      some { timestamp := "t3", price_at_snapshot := 3, data := { data := none } } :=
  ⟨tracker_fifo_window_and_latest.1 1 1 _ (by decide) (by decide) rfl,
   tracker_fifo_window_and_latest.2 (SnapshotTracker.empty 1) "t3"
     { data := none } 3 (by decide)⟩

/-! ## Collection scheduler: `snapshot_scheduler.collect_snapshots`

The outbound collaborators are an explicit environment: `price` embeds
`binance_client.get_current_price` (which raises on network/HTTP errors),
`hyblock` embeds `get_hyblock_raw` (whose result dict always carries the
`liquidation_levels` key — possibly with value `None`; the call itself can
raise, e.g. from the OAuth2 path), and `prune` embeds the
`cleanup_old_snapshots(days=30)` call including possible storage faults.
`hour` is the tick's `datetime.utcnow().hour`. -/

structure HyblockRaw where
  liquidation_levels : Option ClustersData
deriving DecidableEq

structure TickEnv where
  price : String → Except Unit ℚ
  hyblock : String → Except Unit HyblockRaw
  prune : DB → Except Unit (DB × Nat)

def SYMBOLS : List String := ["SOL", "BTC", "ETH"]

/-- The body of the per-symbol `try` block.  `get_hyblock_raw`'s dict is
non-empty and always has the `liquidation_levels` key, so the guard
`if hyblock and "liquidation_levels" in hyblock` passes whenever the fetch
returns; when the key's value is `None`, `save_snapshot` raises
`AttributeError` on `clusters_data.get`, which the per-symbol handler catches
— embedded as `Except.error ()`.  `true` means the symbol was saved. -/
def symbolStep (env : TickEnv) (db : DB) (ts sym : String) :
    Except Unit (DB × Bool) :=
  match env.price (sym ++ "USDT") with
  | Except.error e => Except.error e
  | Except.ok price =>
    match env.hyblock sym with
    | Except.error e => Except.error e
    | Except.ok hyblock =>
      match hyblock.liquidation_levels with
      | some clusters_data =>
        Except.ok ((save_snapshot db ts sym price clusters_data).1, true)
      | none => Except.error ()

/-- `collect_snapshots`: loop over the symbols, catching each symbol's
failure and counting it; afterwards, when the tick's UTC hour is 0, run the
retention prune — which the code does NOT wrap in a `try`, so a prune failure
propagates.  Returns `(db, saved, errors)`. -/
def collect_snapshots (env : TickEnv) (ts : String) (hour : Nat) (db : DB) :
    Except Unit (DB × Nat × Nat) :=
  let loop := SYMBOLS.foldl (fun acc sym =>
    match symbolStep env acc.1 ts sym with
    | Except.ok (db2, true) => (db2, acc.2.1 + 1, acc.2.2)
    | Except.ok (db2, false) => (db2, acc.2.1, acc.2.2 + 1)
    | Except.error _ => (acc.1, acc.2.1, acc.2.2 + 1)) (db, 0, 0)
  if hour = 0 then
    match env.prune loop.1 with
    | Except.ok pr => Except.ok (pr.1, loop.2.1, loop.2.2)
    | Except.error e => Except.error e
  else
    Except.ok loop

/-- C2: when the BTC price fetch raises and SOL and ETH both succeed with
liquidation data present, the tick completes (away from the unguarded hour-0
prune) with 2 saves and 1 error — one symbol's failure does not abort the
loop. -/
theorem collect_snapshots_isolates_symbol_failure
    (env : TickEnv) (ts : String) (hour : Nat) (db : DB)
    (p1 p2 : ℚ) (d1 d2 : ClustersData)
    (hsolp : env.price "SOLUSDT" = Except.ok p1)
    (hsolh : env.hyblock "SOL" = Except.ok { liquidation_levels := some d1 })
    (hbtc : env.price "BTCUSDT" = Except.error ())
    (hethp : env.price "ETHUSDT" = Except.ok p2)
    (hethh : env.hyblock "ETH" = Except.ok { liquidation_levels := some d2 })
    (hok : hour ≠ 0 ∨ ∀ d, ∃ r, env.prune d = Except.ok r) :
    ∃ db2, collect_snapshots env ts hour db = Except.ok (db2, 2, 1) := by
  have sSOL : symbolStep env db ts "SOL" =
      Except.ok ((save_snapshot db ts "SOL" p1 d1).1, true) := by
    simp only [symbolStep, show ("SOL" ++ "USDT" : String) = "SOLUSDT" from rfl,
      hsolp, hsolh]
  set db1 := (save_snapshot db ts "SOL" p1 d1).1 with hdb1
  have sBTC : symbolStep env db1 ts "BTC" = Except.error () := by
    simp only [symbolStep, show ("BTC" ++ "USDT" : String) = "BTCUSDT" from rfl,
      hbtc]
  have sETH : symbolStep env db1 ts "ETH" =
      Except.ok ((save_snapshot db1 ts "ETH" p2 d2).1, true) := by
    simp only [symbolStep, show ("ETH" ++ "USDT" : String) = "ETHUSDT" from rfl,
      hethp, hethh]
  set db2 := (save_snapshot db1 ts "ETH" p2 d2).1 with hdb2
  by_cases h0 : hour = 0
  · obtain ⟨r, hr⟩ := (hok.resolve_left (fun hne => hne h0)) db2
    refine ⟨r.1, ?_⟩
    simp only [collect_snapshots, SYMBOLS, List.foldl_cons, List.foldl_nil,
      sSOL, sBTC, sETH, if_pos h0, hr]
  · refine ⟨db2, ?_⟩
    simp only [collect_snapshots, SYMBOLS, List.foldl_cons, List.foldl_nil,
      sSOL, sBTC, sETH, if_neg h0]

/-- A concrete environment for the C2 scenario. -/
def envOneFailure : TickEnv :=
  { price := fun s => if s = "BTCUSDT" then Except.error () else Except.ok 100
    hyblock := fun _ => Except.ok { liquidation_levels := some { data := some [] } }
    prune := fun d => Except.ok (d, 0) }


/-- Concrete instance of C2. -/
theorem collect_snapshots_isolates_symbol_failure_witness :
    ∃ db2, collect_snapshots envOneFailure "t" 12 DB.empty = Except.ok (db2, 2, 1) :=
  collect_snapshots_isolates_symbol_failure envOneFailure "t" 12 DB.empty
    100 100 { data := some [] } { data := some [] }
    rfl rfl rfl rfl rfl (Or.inl (by decide))

/-- An environment whose prune (storage) always faults. -/
def envPruneFault : TickEnv :=
  { price := fun _ => Except.error ()
    hyblock := fun _ => Except.error ()
    prune := fun _ => Except.error () }

/-- C3 as stated is false: at a UTC hour-0 tick whose prune raises,
`collect_snapshots` raises — the cleanup call is not inside any `try`. -/
theorem collect_snapshots_prune_failure_escapes :
    collect_snapshots envPruneFault "t" 0 DB.empty = Except.error () := rfl

/-- C3 (amended): a prune failure during an hour-0 tick propagates out of
`collect_snapshots` (for every environment whose prune raises), instead of
being caught and logged inside the tick. -/
theorem collect_snapshots_prune_failure_propagates
    (env : TickEnv) (ts : String) (db : DB)
    (hprune : ∀ d, env.prune d = Except.error ()) :
    collect_snapshots env ts 0 db = Except.error () := by
  simp only [collect_snapshots, hprune]
  rfl

/-- Concrete instance of C3 (amended). -/
theorem collect_snapshots_prune_failure_propagates_witness :
    collect_snapshots envPruneFault "w" 0 DB.empty = Except.error () :=
  collect_snapshots_prune_failure_propagates envPruneFault "w" DB.empty
    (fun _ => rfl)

end Klaken
